import Mathlib

/-!
Verification of the CAMS utility layer against its specification.

The Python sources embedded here are:
* `src/cams/lib.py` — `hsize`, `getconfig`, `theme`, `mkcontext`;
* `src/cams/management/commands/genmodels.py` — `configmodels` (field
  declarations, column-name list, `todict` body) and `Command.handle`
  (theme discovery, CSS compilation);
* `src/src/lib.py` — `csv2list`.

Machine floating point only touches `hsize`; on the integer inputs the
claims quantify over, every Python float operation involved (integer to
float conversion below 2^53, division by 1024.0, formatting with
round-half-to-even) is exact, so the embedding uses `ℚ` with an explicit
round-half-to-even formatter.  Python exceptions (`KeyError` from a missing
`"default"` theme, the `NameError` raised by the undefined `num` in
`hsize`'s fall-through line) are modelled by `Option`: `none` is a raised,
unhandled exception.
-/

/-- Round-half-to-even of a rational, as used by Python `format(x, ".0f")`
on a float holding the rational exactly.  With `f = ⌊q⌋` the fractional
part is `q - f = (q.num - f * q.den) / q.den`, so comparing it with `1/2`
is comparing `r = 2 * (q.num - f * q.den)` with `q.den`; the definition is
phrased on numerator and denominator so that it evaluates by `rfl`. -/
def rhe (q : ℚ) : ℤ :=
  let f : ℤ := q.floor
  let r : ℤ := 2 * q.num - 2 * f * (q.den : ℤ)
  if r < (q.den : ℤ) then f
  else if (q.den : ℤ) < r then f + 1
  else if f % 2 = 0 then f else f + 1

/-- Right-justify a string in a minimum field width of 3, space padding:
the width part of Python `f"{x:3.0f}"`. -/
def padLeft3 (s : String) : String :=
  if s.length < 3 then String.mk (List.replicate (3 - s.length) ' ') ++ s else s

/-- Python `f"{x:3.0f}"` for a float holding the rational `q` exactly:
round half to even to an integer, render it (Python keeps the sign when a
negative value rounds to zero, shown as `-0`), pad to field width 3. -/
def fmt3 (q : ℚ) : String :=
  let z : ℤ := rhe q
  padLeft3 (if q < 0 ∧ z = 0 then "-0" else toString z)

/-- The unit-prefix list iterated by `hsize` (`src/cams/lib.py:44`).  The
first entry is a single space, not the empty string. -/
def hsizeUnits : List String := [" ", "Ki", "Mi", "Gi", "Ti", "Pi", "Ei", "Zi"]

/-- The `for unit in [...]` loop of `hsize` (`src/cams/lib.py:44-47`).
When the list is exhausted the source runs
`return f"{num:.1f}Yi{suffix}"` where `num` is an undefined name, so the
call raises `NameError` instead of returning; that raised exception is the
`none` result. -/
def hsizeLoop : ℚ → List String → Option String
  | _, [] => none
  | q, unit :: rest =>
    if |q| < 1024 then some (fmt3 q ++ unit ++ "Bytes")
    else hsizeLoop (q / 1024) rest

/-- `hsize` (`src/cams/lib.py:41-49`): "human size" data size formatting,
suffix `"Bytes"`. -/
def hsize (fsize : ℚ) : Option String :=
  hsizeLoop fsize hsizeUnits

/-!
### `src/cams/lib.py` — config lookup, theme resolution, context building

The JSON registries loaded at module import (`themes` from `themecfg.json`,
`jsondata` from `config/config.json`) are JSON objects: ordered maps with
string keys, embedded as association lists and passed explicitly.  The
theme value and config value types stay abstract (`V`, `C`): nothing in
the code under scrutiny inspects them.
-/

/-- `getconfig` (`src/cams/lib.py:26-31`): `jsondata[part]`, with the
`KeyError` handler returning `None` (after printing a warning, which is a
side effect the claims do not mention for this function). -/
def getconfig {C : Type} (jsondata : List (String × C)) (part : String) : Option C :=
  jsondata.lookup part

/-- `theme` (`src/cams/lib.py:89-94`): `themes[tname]`; on `KeyError`
(either because the cookie is absent, `tname = none`, or because the name
is not a key) print a warning and return `themes["default"]`.  The result
is a pair: `true` iff the warning line ran, and `some` value or `none`
when the fallback lookup itself raises an unhandled `KeyError`. -/
def theme {V : Type} (themes : List (String × V)) (tname : Option String) :
    Bool × Option V :=
  match tname.bind themes.lookup with
  | some v => (false, some v)
  | none => (true, themes.lookup "default")

/-- An inbound request as `mkcontext` sees it: only `request.COOKIES` is
read, a string-keyed cookie map. -/
structure Request where
  cookies : List (String × String)

/-- The context dictionary built by `mkcontext` (`src/cams/lib.py:52-79`).
Its fixed keys become fields; `misc` and `navbar` hold `getconfig`
results, which are `None` when the key is missing. -/
structure Context (V C : Type) where
  title : String
  styling : V
  misc : Option C
  navbar : Option C
  ver : String
  fa : Bool
  jq : Bool
  ts : Bool
  s2 : Bool

/-- `mkcontext` (`src/cams/lib.py:52-79`): build the context from the
theme cookie, then set the four script flags from `scripts`
(`"font"` / `"form"` / `"table"` / anything else).  When `theme` raises
(missing `"default"` entry) the exception propagates: result `none`.  The
source's Python default argument is `scripts = "none"`; callers here pass
`scripts` explicitly. -/
def mkcontext {V C : Type} (themes : List (String × V)) (jsondata : List (String × C))
    (ver : String) (request : Request) (title : String) (scripts : String) :
    Option (Context V C) :=
  match (theme themes (request.cookies.lookup "theme")).2 with
  | none => none
  | some st =>
    if scripts = "font" then
      some ⟨title, st, getconfig jsondata "misc", getconfig jsondata "navbar", ver,
        true, false, false, false⟩
    else if scripts = "form" then
      some ⟨title, st, getconfig jsondata "misc", getconfig jsondata "navbar", ver,
        false, true, false, true⟩
    else if scripts = "table" then
      some ⟨title, st, getconfig jsondata "misc", getconfig jsondata "navbar", ver,
        true, true, true, false⟩
    else
      some ⟨title, st, getconfig jsondata "misc", getconfig jsondata "navbar", ver,
        false, false, false, false⟩

/-!
### `src/cams/management/commands/genmodels.py` — `configmodels`

A column definition from the schema's `table` section.  `max` is only read
for `"string"` columns and `ddfile` only for the select branch; a JSON
column object lacking them simply never has those attributes accessed, so
the structure carries them unconditionally.
-/

structure Column where
  col : String
  datatype : String
  max : Nat
  ddfile : String

/-- A `table` section: JSON object mapping group name to its column
definition list, in document order. -/
abbrev TableConfig := List (String × List Column)

/-- `needle` is a prefix of `hay` (character lists). -/
def takesAt : List Char → List Char → Bool
  | [], _ => true
  | _ :: _, [] => false
  | a :: as, b :: bs => a == b && takesAt as bs

/-- `needle` occurs contiguously inside `hay` (character lists). -/
def subIn : List Char → List Char → Bool
  | needle, [] => needle.isEmpty
  | needle, hay@(_ :: rest) => takesAt needle hay || subIn needle rest

/-- Python's `needle in hay` on strings: contiguous substring test (the
empty string is in every string).  This is the semantics of the source's
`if dt in "select"` (`genmodels.py:54`), which is a substring test, not an
equality test. -/
def strIn (needle hay : String) : Bool :=
  subIn needle.data hay.data

/-- The field-declaration text emitted for one column of group `x`
(`genmodels.py:54-63`): the four recognized branches produce the templated
declaration, the `else` branch produces no declaration (`none`) and the
console warning instead. -/
def fieldDecl (x : String) (y : Column) : Option String :=
  let dt := y.datatype
  if strIn dt "select" then
    some ("    " ++ y.col ++ " = models.CharField(blank = True, max_length = 128, choices = Choices.totuplelist(\"" ++ y.ddfile ++ "\"))\n    " ++ y.col ++ ".group = \"" ++ x ++ "\"\n")
  else if dt = "string" then
    some ("    " ++ y.col ++ " = models.CharField(blank = True, max_length = " ++ toString y.max ++ ")\n    " ++ y.col ++ ".group = \"" ++ x ++ "\"\n")
  else if dt = "text" then
    some ("    " ++ y.col ++ " = models.TextField(blank = True, null = True)\n    " ++ y.col ++ ".group = \"" ++ x ++ "\"\n")
  else if dt = "date" then
    some ("    " ++ y.col ++ " = models.DateField(null = True)\n    " ++ y.col ++ ".group = \"" ++ x ++ "\"\n")
  else
    none

/-- The console warning printed by the `else` branch (`genmodels.py:63`). -/
def unknownDtWarn (dt : String) : String :=
  "WARNING: Unknown datatype \"" ++ dt ++ "\", skipping"

/-- The double loop of `configmodels` over `jsonconfig["table"]`
(`genmodels.py:47-63`), accumulating the `table` string of field
declarations and, in order, the warnings printed for skipped columns. -/
def tableWarnings (tbl : TableConfig) : String × List String :=
  tbl.foldl (fun acc x =>
    x.2.foldl (fun a y =>
      match fieldDecl x.1 y with
      | some s => (a.1 ++ s, a.2)
      | none => (a.1, a.2 ++ [unknownDtWarn y.datatype])) acc) ("", [])

/-- The `colnames` accumulation loop (`genmodels.py:72-75`): every
configured column name, in schema order, with no datatype filtering. -/
def colnamesLoop (tbl : TableConfig) : List String :=
  tbl.foldl (fun acc x => x.2.foldl (fun a y => a ++ [y.col]) acc) []

/-- `colnames` as `configmodels` leaves it (`genmodels.py:77-79`):
`["inid"] + colnames`, then `append("tcrd")`, then `append("tmod")`.
This list is spliced into the generated `fieldnames()` body verbatim
(`genmodels.py:111-112`). -/
def colnames (tbl : TableConfig) : List String :=
  (["inid"] ++ colnamesLoop tbl) ++ ["tcrd"] ++ ["tmod"]

/-- The `todict` string-building loop over `colnames`
(`genmodels.py:80-82`). -/
def todictBody (names : List String) : String :=
  names.foldl (fun acc i => acc ++ "\"" ++ i ++ "\": self." ++ i ++ ", ") ""

/-- The complete dictionary literal spliced into the generated `todict()`
body: `"{" + todict + "}"` (`genmodels.py:83`). -/
def todictStr (names : List String) : String :=
  "\x7b" ++ todictBody names ++ "\x7d"

/-!
### `genmodels.py` — `Command.handle`: theme discovery (lines 187-203)

The filesystem is an input: `entries` is `os.listdir` of the themes
directory restricted to subdirectories, and `fs name` says what loading
`config/themes/<name>/index.json` yields — absent, unparseable, or a
parsed descriptor.
-/

inductive IndexState (T : Type) where
  | missing : IndexState T
  | malformed : IndexState T
  | valid : T → IndexState T

/-- Warning printed when a theme directory has no `index.json`
(`genmodels.py:203`). -/
def missingWarn (name : String) : String :=
  "genmodels.py WARNING: Theme \"" ++ name ++ "\" does not have a index.json, the theme would not be available"

/-- Warning printed when `index.json` fails to parse (`genmodels.py:200`;
the source interpolates the JSON library's exception text, which the
embedding leaves out). -/
def malformedWarn (name : String) : String :=
  "genmodels.py WARNING: Exception raised by JSON library parsing theme \"" ++ name ++ "\", the theme would not be available"

/-- The `for name in themedir` loop (`genmodels.py:193-203`): collect
parsed theme descriptors and, in order, the warnings for skipped
directories. -/
def discoverLoop {T : Type} (fs : String → IndexState T) (names : List String) :
    List T × List String :=
  names.foldl (fun acc name =>
    match fs name with
    | .valid t => (acc.1 ++ [t], acc.2)
    | .malformed => (acc.1, acc.2 ++ [malformedWarn name])
    | .missing => (acc.1, acc.2 ++ [missingWarn name])) ([], [])

/-- Theme discovery (`genmodels.py:187-203`): take the subdirectory
listing, drop `"common"` if present (`list.remove` drops the first,
and under `os.listdir` only, occurrence), then run the loading loop. -/
def discoverThemes {T : Type} (fs : String → IndexState T) (entries : List String) :
    List T × List String :=
  let themedir := if "common" ∈ entries then entries.erase "common" else entries
  discoverLoop fs themedir

/-!
### `genmodels.py` — `Command.handle`: CSS compilation (lines 205-244)

External effects and external libraries are inputs: `GenFs` is the
filesystem, `compress` is `csscompressor.compress`, `b64` is
`base64.b64encode(...).decode("utf-8")` on the font file's bytes.  Both
library functions are pure text transformations; keeping them as
parameters makes the embedding a function of exactly the data the
round-trip claim fixes.
-/

/-- A theme descriptor parsed from `index.json`'s `"theme"` key, with the
fields `Command.handle` reads. -/
structure ThemeIndex where
  int_name : String
  disp_name : String
  fonts : List (String × String)
  css : String

/-- The filesystem as `Command.handle`'s CSS step reads it: text reads,
binary reads, and existence checks; `none` is a raised `IOError`. -/
structure GenFs where
  fileText : String → Option String
  fileBytes : String → Option (List Nat)
  pathExists : String → Bool

/-- `pathlib.Path(p).suffix` for ordinary file names: the final
`"." ++ ext` of the last path component, `""` when it has no dot.  (The
source only ever consults it for `.otf`/`.ttf` font paths.) -/
def pathSuffix (p : String) : String :=
  let base := (p.splitOn "/").getLastD ""
  match base.splitOn "." with
  | [] => ""
  | [_] => ""
  | parts => "." ++ parts.getLastD ""

/-- One rendered `@font-face` rule (`genmodels.py:219-225`). -/
def fontFace (family filetype b64font : String) : String :=
  "\n@font-face \x7b\n    font-family: " ++ family ++ ";\n    src: url(data:font/"
    ++ filetype ++ ";charset=utf-8;base64," ++ b64font
    ++ ") format(\x27" ++ filetype ++ "\x27);\n\x7d\n\n"

/-- The font loop body over one theme's `fonts` (`genmodels.py:208-225`).
`ft` carries the current binding of the Python local `fontfiletype`,
which is only assigned on `.otf`/`.ttf` and otherwise retains its value
from an earlier iteration; if it was never assigned, the `.format` call
raises `NameError` (`none`).  The font file is read before that reference,
so a missing file raises first. -/
def themeFontsCss (b64 : List Nat → String) (fs : GenFs) :
    List (String × String) → Option String → String → Option (String × Option String)
  | [], ft, acc => some (acc, ft)
  | (font, path) :: rest, ft, acc =>
    let ext := pathSuffix path
    let ft' := if ext = ".otf" then some "opentype"
               else if ext = ".ttf" then some "truetype"
               else ft
    match fs.fileBytes path with
    | none => none
    | some bytes =>
      match ft' with
      | none => none
      | some t => themeFontsCss b64 fs rest ft' (acc ++ fontFace font t (b64 bytes))

/-- The outer `for theme in themeindices` font loop (`genmodels.py:207`),
threading the `fontfiletype` binding across themes. -/
def allFontsCss (b64 : List Nat → String) (fs : GenFs) :
    List ThemeIndex → Option String → String → Option String
  | [], _, acc => some acc
  | th :: rest, ft, acc =>
    match themeFontsCss b64 fs th.fonts ft acc with
    | none => none
    | some (acc', ft') => allFontsCss b64 fs rest ft' acc'

/-- `themecss` after the font loops and the base stylesheet read
(`genmodels.py:205-228`): all font-face rules, then the contents of
`jsonconfig["misc"]["basecss"]`. -/
def buildThemecss (b64 : List Nat → String) (fs : GenFs)
    (themeindices : List ThemeIndex) (basecssPath : String) : Option String :=
  match allFontsCss b64 fs themeindices none "" with
  | none => none
  | some fontcss =>
    match fs.fileText basecssPath with
    | none => none
    | some base => some (fontcss ++ base)

/-- Warning printed when the re-check of a theme's `index.json` fails
(`genmodels.py:241`). -/
def dirWarn (name : String) : String :=
  "themecfg.py WARNING: Theme directory \"config/themes/" ++ name ++ "\" does not have an index.json. The theme would not be available."

/-- The per-theme compile loop (`genmodels.py:231-241`): re-check the
theme's `index.json`, read its CSS file, replace the `css` field with
`compress(themecss + contents)` and record the theme under its
`int_name`; on a failed re-check, warn and continue. -/
def compileLoop (compress : String → String) (fs : GenFs) (themecss : String) :
    List ThemeIndex → List (String × ThemeIndex) × List String →
    Option (List (String × ThemeIndex) × List String)
  | [], acc => some acc
  | th :: rest, acc =>
    let themeind := "config/themes/" ++ th.int_name ++ "/index.json"
    if fs.pathExists themeind then
      match fs.fileText th.css with
      | none => none
      | some c =>
        compileLoop compress fs themecss rest
          (acc.1 ++ [(th.int_name, ⟨th.int_name, th.disp_name, th.fonts, compress (themecss ++ c)⟩)], acc.2)
    else
      compileLoop compress fs themecss rest (acc.1, acc.2 ++ [dirWarn th.int_name])

/-- The whole CSS compile step (`genmodels.py:205-244`): build `themecss`,
then compile every discovered theme, yielding the `themes` mapping that is
serialized to `themecfg.json` plus the warnings printed on the way. -/
def compileThemes (compress : String → String) (b64 : List Nat → String) (fs : GenFs)
    (themeindices : List ThemeIndex) (basecssPath : String) :
    Option (List (String × ThemeIndex) × List String) :=
  match buildThemecss b64 fs themeindices basecssPath with
  | none => none
  | some themecss => compileLoop compress fs themecss themeindices ([], [])

/-!
### `src/src/lib.py` — `csv2list`

`csv2list` hands the opened file object (an iterable of lines) to Python's
`csv.DictReader` with the default dialect.  The embedding models the file
as its list of lines, and line parsing on the dialect's quote-free
fragment: cells containing no delimiter, quote or newline characters (the
round-trip theorem's hypotheses restrict its inputs to exactly that
fragment).  Row-to-mapping conversion follows `DictReader.__next__` in
full: `dict(zip(fieldnames, row))`, then a row longer than the header
bundles the extra cells under the `restkey` key (default `None`), and a
shorter row pads the remaining fieldnames with `restval` (default
`None`); blank lines yield the empty record, which `DictReader` skips.
Python's `None` key and `None`/list cell values force the mapping type:
keys are `Option String` (`none` is `restkey`), cells are `CsvCell`.
-/

/-- Split a character list at commas; `acc` holds the current cell
reversed.  This is the delimiter behaviour of the csv default dialect on
quote-free input. -/
def splitComma : List Char → List Char → List String
  | [], acc => [String.mk acc.reverse]
  | c :: cs, acc =>
    if c = ',' then String.mk acc.reverse :: splitComma cs []
    else splitComma cs (c :: acc)

/-- Parse one CSV line into its cells. -/
def parseCsvLine (l : String) : List String :=
  splitComma l.data []

/-- The record stream `csv.reader` produces: blank lines yield the empty
record, which `DictReader` skips. -/
def csvRecords (lines : List String) : List (List String) :=
  (lines.filter (fun l => l ≠ "")).map parseCsvLine

/-- A value in a `DictReader` mapping: a cell's text, the `restval`
default `None` filled in for a fieldname beyond a short row's end, or the
list of extra cells of a long row bundled under `restkey`. -/
inductive CsvCell where
  | str : String → CsvCell
  | null : CsvCell
  | rest : List String → CsvCell

/-- One data row's mapping, as built by `DictReader.__next__`:
`d = dict(zip(self.fieldnames, row))`; then `if lf < lr:
d[self.restkey] = row[lf:]` (the `restkey` default is `None`, the `none`
key) `elif lf > lr: for key in self.fieldnames[lr:]: d[key] =
self.restval` (the `restval` default is `None`).  Fieldnames are distinct
in the modeled fragment, so the association list built in insertion order
is the Python dict. -/
def dictRow (fieldnames row : List String) : List (Option String × CsvCell) :=
  (fieldnames.zip row).map (fun p => (some p.1, CsvCell.str p.2))
    ++ (if fieldnames.length < row.length then
          [(none, CsvCell.rest (row.drop fieldnames.length))]
        else
          (fieldnames.drop row.length).map (fun k => (some k, CsvCell.null)))

/-- `list(csv.DictReader(f))`: first record is the header
(`self._fieldnames = next(self.reader)`), every further record becomes
its `dictRow` mapping, in file order. -/
def dictReader (lines : List String) : List (List (Option String × CsvCell)) :=
  match csvRecords lines with
  | [] => []
  | header :: rows => rows.map (fun r => dictRow header r)

/-- `csv2list` (`src/src/lib.py:8-11`): open `path`, run `DictReader`
over its lines, return the list.  `fs` is the filesystem; `none` is the
raised `IOError` of an unreadable path. -/
def csv2list (fs : String → Option (List String)) (path : String) :
    Option (List (List (Option String × CsvCell))) :=
  (fs path).map dictReader

/-- Render one record as a CSV line (test-input builder for the
round-trip statement, not source code). -/
def renderRecord : List String → String
  | [] => ""
  | [c] => c
  | c :: rest => c ++ "," ++ renderRecord rest

/-!
## Theorems

### Helper lemmas about `hsize`
-/

theorem hsize_small (n : ℕ) (h : n < 1024) :
    hsize (n : ℚ) = some (fmt3 (n : ℚ) ++ " " ++ "Bytes") := by
  have habs : |(n : ℚ)| < 1024 := by
    rw [abs_of_nonneg (by positivity)]
    exact_mod_cast h
  simp only [hsize, hsizeUnits, hsizeLoop]
  rw [if_pos habs]

theorem hsize_ki (n : ℕ) (h1 : 1024 ≤ n) (h2 : n < 1024 ^ 2) :
    hsize (n : ℚ) = some (fmt3 ((n : ℚ) / 1024) ++ "Ki" ++ "Bytes") := by
  have habs1 : ¬ |(n : ℚ)| < 1024 := by
    rw [abs_of_nonneg (by positivity)]
    push_neg
    exact_mod_cast h1
  have habs2 : |(n : ℚ) / 1024| < 1024 := by
    rw [abs_of_nonneg (by positivity), div_lt_iff₀ (by norm_num)]
    calc (n : ℚ) < ((1024 ^ 2 : ℕ) : ℚ) := by exact_mod_cast h2
    _ = 1024 * 1024 := by norm_num
  simp only [hsize, hsizeUnits, hsizeLoop]
  rw [if_neg habs1, if_pos habs2]

theorem hsizeLoop_none (l : List String) : ∀ q : ℚ, (1024 : ℚ) ^ l.length ≤ |q| →
    hsizeLoop q l = none := by
  induction l with
  | nil => intro q _; rfl
  | cons u rest ih =>
    intro q hq
    have h1 : ¬ |q| < 1024 := by
      push_neg
      calc (1024 : ℚ) = 1024 ^ 1 := by norm_num
      _ ≤ 1024 ^ (u :: rest).length := by
            apply pow_le_pow_right₀ (by norm_num)
            simp
      _ ≤ |q| := hq
    have h2 : (1024 : ℚ) ^ rest.length ≤ |q / 1024| := by
      rw [abs_div, abs_of_pos (by norm_num : (0:ℚ) < 1024), le_div_iff₀ (by norm_num)]
      calc (1024:ℚ) ^ rest.length * 1024 = 1024 ^ (rest.length + 1) := by ring
      _ ≤ |q| := by simpa using hq
    simp only [hsizeLoop, if_neg h1]
    exact ih _ h2

theorem hsize_1024_eval : hsize 1024 = some "  1KiBytes" := by
  have h := hsize_ki 1024 (by norm_num) (by norm_num)
  rw [show ((1024 : ℕ) : ℚ) = 1024 by norm_num] at h
  rw [h, show (1024 : ℚ) / 1024 = 1 by norm_num]
  rfl

/-!
### C1, C5, C9 — `hsize`
-/

/-- C1 (amended).  For `0 ≤ n < 1024`, `hsize n` renders the value in the
3-wide field followed by the first unit slot — a single space character,
not the empty string — and the `"Bytes"` suffix; for `1024 ≤ n < 1024²` it
renders `n/1024` rounded half-to-even to 0 decimals in the 3-wide field,
followed directly by `"Ki"` and then `"Bytes"` with no space in between.
In particular `hsize 1023 = "1023 Bytes"` (the space is the blank unit
slot) and `hsize 1024 = "  1KiBytes"`. -/
theorem hsize_byte_ki_ranges :
    (∀ n : ℕ, n < 1024 → hsize (n : ℚ) = some (fmt3 (n : ℚ) ++ " " ++ "Bytes"))
    ∧ (∀ n : ℕ, 1024 ≤ n → n < 1024 ^ 2 →
        hsize (n : ℚ) = some (fmt3 ((n : ℚ) / 1024) ++ "Ki" ++ "Bytes"))
    ∧ hsize 1023 = some "1023 Bytes"
    ∧ hsize 1024 = some "  1KiBytes" :=
  ⟨hsize_small, hsize_ki, by rfl, hsize_1024_eval⟩

/-- Witness for C1: both general ranges applied at concrete points. -/
theorem hsize_byte_ki_ranges_witness :
    hsize 5 = some "  5 Bytes" ∧ hsize 2048 = some "  2KiBytes" := by
  constructor
  · have h := hsize_byte_ki_ranges.1 5 (by norm_num)
    rw [show ((5 : ℕ) : ℚ) = 5 by norm_num] at h
    rw [h]
    rfl
  · have h := hsize_byte_ki_ranges.2.1 2048 (by norm_num) (by norm_num)
    rw [show ((2048 : ℕ) : ℚ) = 2048 by norm_num] at h
    rw [h, show (2048 : ℚ) / 1024 = 2 by norm_num]
    rfl

/-- Counterexample for C1 as stated: the claim's equation
`hsize 1024 = "  1Ki Bytes"` is false — the code emits the prefix and the
suffix with no separating space, `"  1KiBytes"`. -/
theorem hsize_1024_counterexample :
    hsize 1024 = some "  1KiBytes" ∧ "  1KiBytes" ≠ "  1Ki Bytes" :=
  ⟨hsize_1024_eval, by decide⟩

/-- C5.  Any input of magnitude at least `1024^8` survives the comparison
against 1024 for all eight listed unit prefixes, so the loop exhausts the
list and control reaches `return f"{num:.1f}Yi{suffix}"`, whose `num` is
an undefined name: the call raises `NameError` (modelled `none`) instead
of returning a formatted `"Yi"` string. -/
theorem hsize_yi_fallthrough (q : ℚ) (h : (1024 : ℚ) ^ 8 ≤ |q|) :
    hsize q = none := by
  have := hsizeLoop_none hsizeUnits q (by simpa [hsizeUnits] using h)
  simpa [hsize] using this

/-- Witness for C5 at `1024^8` itself. -/
theorem hsize_yi_fallthrough_witness : hsize (1024 ^ 8) = none := by
  apply hsize_yi_fallthrough
  rw [abs_of_pos (by positivity)]

/-- C9.  For `-1024 < n < 0` the loop's first comparison uses
`abs(fsize)`, so a small negative value returns immediately with the
first (single-space) unit slot and `"Bytes"` suffix, the sign rendered by
the number formatting; e.g. `hsize (-500) = "-500 Bytes"`. -/
theorem hsize_negative_small (n : ℤ) (h1 : -1024 < n) (h2 : n < 0) :
    hsize (n : ℚ) = some (padLeft3 (toString n) ++ " " ++ "Bytes") := by
  have habs : |(n : ℚ)| < 1024 := by
    rw [abs_of_neg (by exact_mod_cast h2)]
    have : (-1024 : ℚ) < n := by exact_mod_cast h1
    linarith
  have hfloor : Rat.floor ((n : ℤ) : ℚ) = n := by
    simp [Rat.floor]
  have hz : rhe (n : ℚ) = n := by
    simp [rhe, hfloor]
  have hfmt : fmt3 (n : ℚ) = padLeft3 (toString n) := by
    simp only [fmt3, hz]
    rw [if_neg]
    rintro ⟨-, hz0⟩
    omega
  simp only [hsize, hsizeUnits, hsizeLoop]
  rw [if_pos habs, hfmt]

/-- Witness for C9 at `-500`. -/
theorem hsize_negative_small_witness : hsize (-500) = some "-500 Bytes" := by
  have h := hsize_negative_small (-500) (by norm_num) (by norm_num)
  rw [show (((-500) : ℤ) : ℚ) = -500 by norm_num] at h
  rw [h]
  rfl

/-!
### C3 — `theme` fallback
-/

/-- C3.  A name that is not a key of the registry takes the `KeyError`
handler: the warning line runs (`true` flag) and the result is the
registry's `"default"` entry, so it equals what `theme` returns for
`"default"` itself; when no `"default"` entry exists either, that second
lookup raises an unhandled `KeyError` (result `none`). -/
theorem theme_fallback {V : Type} (themes : List (String × V)) (name : String)
    (hmiss : themes.lookup name = none) :
    theme themes (some name) = (true, themes.lookup "default")
    ∧ (∀ d : V, themes.lookup "default" = some d →
        (theme themes (some name)).2 = (theme themes (some "default")).2)
    ∧ (themes.lookup "default" = none → (theme themes (some name)).2 = none) := by
  have hmain : theme themes (some name) = (true, themes.lookup "default") := by
    simp [theme, hmiss]
  refine ⟨hmain, fun d hd => ?_, fun hd => by simp [hmain, hd]⟩
  simp [hmain, theme, hmiss, hd]

/-- Witness for C3: one-entry registry holding only `"default"`, looked up
with the unknown name `"nonexistent"`. -/
theorem theme_fallback_witness :
    theme [("default", (0 : Nat))] (some "nonexistent") = (true, some 0)
    ∧ (theme [("default", (0 : Nat))] (some "nonexistent")).2
        = (theme [("default", (0 : Nat))] (some "default")).2 := by
  have h := theme_fallback [("default", (0 : Nat))] "nonexistent" (by decide)
  refine ⟨?_, h.2.1 0 (by decide)⟩
  rw [h.1]
  rfl

/-!
### C4 — `mkcontext` script flags
-/

/-- C4.  Whenever `mkcontext` returns a context, its four script flags are
exactly the table in the source: `"font" ↦ (fa, jq, ts, s2) =
(true, false, false, false)`, `"form" ↦ (false, true, false, true)`,
`"table" ↦ (true, true, true, false)`, and any other `scripts` value gives
all four `false`. -/
theorem mkcontext_flags {V C : Type} (themes : List (String × V))
    (jsondata : List (String × C)) (ver : String) (request : Request)
    (title : String) (scripts : String) (c : Context V C)
    (h : mkcontext themes jsondata ver request title scripts = some c) :
    (scripts = "font" → c.fa = true ∧ c.jq = false ∧ c.ts = false ∧ c.s2 = false)
    ∧ (scripts = "form" → c.fa = false ∧ c.jq = true ∧ c.ts = false ∧ c.s2 = true)
    ∧ (scripts = "table" → c.fa = true ∧ c.jq = true ∧ c.ts = true ∧ c.s2 = false)
    ∧ (scripts ≠ "font" → scripts ≠ "form" → scripts ≠ "table" →
        c.fa = false ∧ c.jq = false ∧ c.ts = false ∧ c.s2 = false) := by
  unfold mkcontext at h
  split at h
  · exact Option.noConfusion h
  · by_cases h1 : scripts = "font"
    · rw [if_pos h1] at h
      injection h with h2
      subst h2
      refine ⟨fun _ => ⟨rfl, rfl, rfl, rfl⟩, fun hs => ?_, fun hs => ?_,
        fun hs1 _ _ => absurd h1 hs1⟩
      · rw [h1] at hs; exact absurd hs (by decide)
      · rw [h1] at hs; exact absurd hs (by decide)
    · rw [if_neg h1] at h
      by_cases hf : scripts = "form"
      · rw [if_pos hf] at h
        injection h with h2
        subst h2
        refine ⟨fun hs => absurd hs h1, fun _ => ⟨rfl, rfl, rfl, rfl⟩, fun hs => ?_,
          fun _ hs2 _ => absurd hf hs2⟩
        rw [hf] at hs; exact absurd hs (by decide)
      · rw [if_neg hf] at h
        by_cases ht : scripts = "table"
        · rw [if_pos ht] at h
          injection h with h2
          subst h2
          exact ⟨fun hs => absurd hs h1, fun hs => absurd hs hf,
            fun _ => ⟨rfl, rfl, rfl, rfl⟩, fun _ _ hs3 => absurd ht hs3⟩
        · rw [if_neg ht] at h
          injection h with h2
          subst h2
          exact ⟨fun hs => absurd hs h1, fun hs => absurd hs hf, fun hs => absurd hs ht,
            fun _ _ _ => ⟨rfl, rfl, rfl, rfl⟩⟩

/-- Witness for C4: concrete call with `scripts = "table"`. -/
theorem mkcontext_flags_witness :
    (⟨"t", 0, none, none, "v", true, true, true, false⟩ : Context Nat Nat).fa = true
    ∧ (⟨"t", 0, none, none, "v", true, true, true, false⟩ : Context Nat Nat).jq = true
    ∧ (⟨"t", 0, none, none, "v", true, true, true, false⟩ : Context Nat Nat).ts = true
    ∧ (⟨"t", 0, none, none, "v", true, true, true, false⟩ : Context Nat Nat).s2 = false :=
  (mkcontext_flags [("default", 0)] [] "v" ⟨[]⟩ "t" "table" _ rfl).2.2.1 rfl

/-!
### C2 — `configmodels` datatype dispatch
-/

/-- C2 is refuted by the code: the select branch of `configmodels` is
`if dt in "select"` (`genmodels.py:54`), Python's substring test.  A
column whose datatype is `"el"` — not one of `select`/`string`/`text`/
`date` — satisfies `"el" in "select"`, so it receives a select-style
`CharField` declaration and no warning, where the claim (and the sibling
`configfields`, which tests `dt in ["date", "select", "string", "text"]`)
requires it to be skipped with a warning.  This theorem evaluates the
embedded loop at that failing input. -/
theorem configmodels_substring_select_bug :
    strIn "el" "select" = true
    ∧ ("el" ∉ (["select", "string", "text", "date"] : List String))
    ∧ tableWarnings [("grp", [⟨"badcol", "el", 0, "dd"⟩])]
        = ("    badcol = models.CharField(blank = True, max_length = 128, choices = Choices.totuplelist(\"dd\"))\n    badcol.group = \"grp\"\n",
           []) := by
  refine ⟨by decide, by decide, by decide⟩

/-!
### C10 — the generated column-name list and `todict`
-/

theorem colFold_inner (ys : List Column) (acc : List String) :
    ys.foldl (fun a y => a ++ [y.col]) acc = acc ++ ys.map Column.col := by
  induction ys generalizing acc with
  | nil => simp
  | cons hd tl ih => simp [ih]

theorem colnamesLoop_eq (tbl : TableConfig) :
    colnamesLoop tbl = (tbl.map (fun x => x.2.map Column.col)).flatten := by
  suffices h : ∀ acc : List String,
      tbl.foldl (fun acc x => x.2.foldl (fun a y => a ++ [y.col]) acc) acc
        = acc ++ (tbl.map (fun x => x.2.map Column.col)).flatten by
    simpa [colnamesLoop] using h []
  induction tbl with
  | nil => simp
  | cons hd tl ih =>
    intro acc
    rw [List.foldl_cons, colFold_inner, ih]
    simp [List.append_assoc]

theorem todictFold_gen (names : List String) (acc : String) :
    names.foldl (fun a i => a ++ "\"" ++ i ++ "\": self." ++ i ++ ", ") acc
      = acc ++ todictBody names := by
  induction names generalizing acc with
  | nil => simp [todictBody, String.append_empty]
  | cons hd tl ih =>
    have h2 : todictBody (hd :: tl)
        = ("" ++ "\"" ++ hd ++ "\": self." ++ hd ++ ", ") ++ todictBody tl := by
      simp only [todictBody, List.foldl_cons]
      rw [ih, ih]
      simp [String.empty_append]
    rw [List.foldl_cons, ih, h2]
    simp [String.append_assoc, String.empty_append]

theorem todictBody_contains (names : List String) (n : String) (hn : n ∈ names) :
    ∃ pre post, todictBody names
      = pre ++ ("\"" ++ n ++ "\": self." ++ n ++ ", ") ++ post := by
  induction names with
  | nil => cases hn
  | cons hd tl ih =>
    have hbody : todictBody (hd :: tl)
        = ("\"" ++ hd ++ "\": self." ++ hd ++ ", ") ++ todictBody tl := by
      simp only [todictBody, List.foldl_cons]
      rw [todictFold_gen, todictFold_gen]
      simp [String.append_assoc, String.empty_append]
    rcases List.mem_cons.mp hn with rfl | htl
    · exact ⟨"", todictBody tl, by
        rw [hbody, String.empty_append]⟩
    · obtain ⟨pre, post, hp⟩ := ih htl
      exact ⟨("\"" ++ hd ++ "\": self." ++ hd ++ ", ") ++ pre, post, by
        rw [hbody, hp]
        simp [String.append_assoc]⟩

/-- C10.  The column-name list spliced into the generated module is
`["inid"]`, then every configured column in schema order — with no
filtering on datatype, so columns skipped by the declaration loop still
appear — then `"tcrd"`, then `"tmod"`; and `todict`'s generated body
contains the `"col": self.col` entry of every configured column. -/
theorem colnames_invariant (tbl : TableConfig) :
    colnames tbl = ["inid"] ++ (tbl.map (fun x => x.2.map Column.col)).flatten ++ ["tcrd", "tmod"]
    ∧ ∀ x ∈ tbl, ∀ y ∈ x.2, y.col ∈ colnames tbl
        ∧ ∃ pre post, todictStr (colnames tbl)
            = pre ++ ("\"" ++ y.col ++ "\": self." ++ y.col ++ ", ") ++ post := by
  have hstruct : colnames tbl
      = ["inid"] ++ (tbl.map (fun x => x.2.map Column.col)).flatten ++ ["tcrd", "tmod"] := by
    simp [colnames, colnamesLoop_eq]
  refine ⟨hstruct, fun x hx y hy => ?_⟩
  have hmem : y.col ∈ colnames tbl := by
    rw [hstruct]
    have : y.col ∈ (tbl.map (fun x => x.2.map Column.col)).flatten :=
      List.mem_flatten.mpr ⟨x.2.map Column.col, List.mem_map_of_mem _ hx, List.mem_map_of_mem _ hy⟩
    simp [this]
  refine ⟨hmem, ?_⟩
  obtain ⟨pre, post, hp⟩ := todictBody_contains (colnames tbl) y.col hmem
  refine ⟨"\x7b" ++ pre, post ++ "\x7d", ?_⟩
  simp only [todictStr]
  rw [hp]
  simp [String.append_assoc]

/-- Witness for C10: a one-group schema whose single column has an
unrecognized datatype still contributes its name to the generated list. -/
theorem colnames_invariant_witness :
    colnames [("g", [⟨"a", "badtype", 0, ""⟩])] = ["inid", "a", "tcrd", "tmod"]
    ∧ "a" ∈ colnames [("g", [⟨"a", "badtype", 0, ""⟩])] := by
  have h := colnames_invariant [("g", [⟨"a", "badtype", 0, ""⟩])]
  refine ⟨by rw [h.1]; rfl, (h.2 _ (List.mem_singleton_self _) _ (List.mem_singleton_self _)).1⟩

/-!
### C6 — theme discovery skips bad indices and continues
-/

theorem discoverLoop_eq {T : Type} (fs : String → IndexState T) (names : List String) :
    discoverLoop fs names
      = (names.filterMap (fun n => match fs n with
           | .valid t => some t
           | .missing => none
           | .malformed => none),
         names.filterMap (fun n => match fs n with
           | .valid _ => none
           | .malformed => some (malformedWarn n)
           | .missing => some (missingWarn n))) := by
  suffices h : ∀ acc : List T × List String,
      names.foldl (fun acc name =>
        match fs name with
        | .valid t => (acc.1 ++ [t], acc.2)
        | .malformed => (acc.1, acc.2 ++ [malformedWarn name])
        | .missing => (acc.1, acc.2 ++ [missingWarn name])) acc
      = (acc.1 ++ names.filterMap (fun n => match fs n with
           | .valid t => some t
           | .missing => none
           | .malformed => none),
         acc.2 ++ names.filterMap (fun n => match fs n with
           | .valid _ => none
           | .malformed => some (malformedWarn n)
           | .missing => some (missingWarn n))) by
    simpa [discoverLoop] using h ([], [])
  induction names with
  | nil => intro acc; simp
  | cons hd tl ih =>
    intro acc
    rw [List.foldl_cons]
    cases hfs : fs hd <;> simp [hfs, ih, List.filterMap_cons]

theorem erase_common_eq_filter (entries : List String) (h : entries.Nodup) :
    (if "common" ∈ entries then entries.erase "common" else entries)
      = entries.filter (fun n => n ≠ "common") := by
  by_cases hmem : "common" ∈ entries
  · rw [if_pos hmem, List.Nodup.erase_eq_filter h]
    apply List.filter_congr
    intro a _
    rcases em (a = "common") with ha | ha <;> simp [ha]
  · rw [if_neg hmem]
    refine (List.filter_eq_self.mpr ?_).symm
    intro a ha
    simp only [ne_eq, decide_eq_true_eq]
    rintro rfl
    exact hmem ha

/-- C6.  Theme discovery enumerates every subdirectory of the themes
directory except `"common"` (subdirectory names are distinct, so
`list.remove` drops exactly that one): the retained descriptors are
precisely those whose index loads (`valid`), in listing order, and every
directory whose index is missing or malformed contributes exactly one
printed warning while processing continues to completion. -/
theorem discoverThemes_skips_invalid {T : Type} (fs : String → IndexState T)
    (entries : List String) (h : entries.Nodup) :
    (discoverThemes fs entries).1
      = (entries.filter (fun n => n ≠ "common")).filterMap
          (fun n => match fs n with
            | .valid t => some t
            | .missing => none
            | .malformed => none)
    ∧ (discoverThemes fs entries).2
      = (entries.filter (fun n => n ≠ "common")).filterMap
          (fun n => match fs n with
            | .valid _ => none
            | .malformed => some (malformedWarn n)
            | .missing => some (missingWarn n)) := by
  unfold discoverThemes
  rw [erase_common_eq_filter entries h, discoverLoop_eq]
  exact ⟨rfl, rfl⟩

/-- Witness for C6: `"common"` excluded, one loadable theme kept, one
directory without an index skipped with its warning. -/
theorem discoverThemes_skips_invalid_witness :
    (discoverThemes
        (fun n => if n = "dark" then IndexState.valid 7 else IndexState.missing)
        ["common", "dark", "broken"]).1 = [7]
    ∧ (discoverThemes
        (fun n => if n = "dark" then IndexState.valid 7 else IndexState.missing)
        ["common", "dark", "broken"]).2 = [missingWarn "broken"] := by
  have h := discoverThemes_skips_invalid
    (fun n => if n = "dark" then IndexState.valid (7 : Nat) else IndexState.missing)
    ["common", "dark", "broken"] (by decide)
  exact ⟨by rw [h.1]; rfl, by rw [h.2]; rfl⟩

/-!
### C7 — CSS compilation is deterministic
-/

/-- C7.  The CSS compile step is a pure function of the discovered theme
descriptors, the font bytes and stylesheet files on disk, the base-CSS
path, and the two library text transformations (`csscompressor.compress`,
base64): two runs over identical inputs produce identical outputs — in
particular byte-identical minified `css` fields for every theme. -/
theorem compileThemes_deterministic
    (compress compress' : String → String) (b64 b64' : List Nat → String)
    (fs fs' : GenFs) (ts ts' : List ThemeIndex) (p p' : String)
    (hc : compress = compress') (hb : b64 = b64') (hf : fs = fs')
    (ht : ts = ts') (hp : p = p') :
    compileThemes compress b64 fs ts p = compileThemes compress' b64' fs' ts' p' := by
  subst hc hb hf ht hp
  rfl

/-- Witness for C7 at a concrete input bundle. -/
theorem compileThemes_deterministic_witness :
    compileThemes id (fun _ => "") ⟨fun _ => some "", fun _ => some [], fun _ => true⟩
        [⟨"t", "T", [], "t.css"⟩] "base.css"
      = compileThemes id (fun _ => "") ⟨fun _ => some "", fun _ => some [], fun _ => true⟩
        [⟨"t", "T", [], "t.css"⟩] "base.css" :=
  compileThemes_deterministic _ _ _ _ _ _ _ _ _ _ rfl rfl rfl rfl rfl

/-!
### C8 — `csv2list`
-/

theorem string_mk_data (s : String) : String.mk s.data = s := by
  cases s
  rfl

theorem splitComma_no_comma (l : List Char) (acc : List Char) (h : ',' ∉ l) :
    splitComma l acc = [String.mk (acc.reverse ++ l)] := by
  induction l generalizing acc with
  | nil => simp [splitComma]
  | cons c cs ih =>
    have hc : ¬ c = ',' := fun he => h (he ▸ List.mem_cons_self c cs)
    have hcs : ',' ∉ cs := fun he => h (List.mem_cons_of_mem _ he)
    simp only [splitComma, if_neg hc]
    rw [ih _ hcs]
    simp [List.append_assoc]

theorem splitComma_split (l : List Char) (rest : List Char) (acc : List Char) (h : ',' ∉ l) :
    splitComma (l ++ ',' :: rest) acc
      = String.mk (acc.reverse ++ l) :: splitComma rest [] := by
  induction l generalizing acc with
  | nil => simp [splitComma]
  | cons c cs ih =>
    have hc : ¬ c = ',' := fun he => h (he ▸ List.mem_cons_self c cs)
    have hcs : ',' ∉ cs := fun he => h (List.mem_cons_of_mem _ he)
    simp only [List.cons_append, splitComma, if_neg hc, List.append_eq]
    rw [ih _ hcs]
    simp [List.append_assoc]

theorem parseCsvLine_renderRecord (r : List String) (hne : r ≠ [])
    (hc : ∀ c ∈ r, ',' ∉ c.data) :
    parseCsvLine (renderRecord r) = r := by
  induction r with
  | nil => exact absurd rfl hne
  | cons c rest ih =>
    cases rest with
    | nil =>
      show splitComma (renderRecord [c]).data [] = [c]
      rw [show renderRecord [c] = c from rfl,
        splitComma_no_comma _ _ (hc c (List.mem_singleton_self c))]
      simp [string_mk_data]
    | cons d tl =>
      have hdata : (renderRecord (c :: d :: tl)).data
          = c.data ++ ',' :: (renderRecord (d :: tl)).data := by
        rw [show renderRecord (c :: d :: tl) = c ++ "," ++ renderRecord (d :: tl) from rfl,
          String.data_append, String.data_append]
        simp
      show splitComma (renderRecord (c :: d :: tl)).data [] = c :: d :: tl
      rw [hdata, splitComma_split _ _ _ (hc c (List.mem_cons_self c _)),
        show splitComma (renderRecord (d :: tl)).data []
          = parseCsvLine (renderRecord (d :: tl)) from rfl,
        ih (by simp) (fun x hx => hc x (List.mem_cons_of_mem _ hx))]
      simp [string_mk_data]

/-- C8.  For a readable file whose lines render a header record and data
records in the default dialect's quote-free fragment — distinct header
names, every cell free of the delimiter, quote and newline characters, no
blank renderings — `csv2list` returns, in file order, one `DictReader`
mapping per data row (`restkey`/`restval` handling included), and for a
row of the header's length that mapping is exactly the header names zipped
with the cell texts, no type coercion; the witness instantiates the
spec's example — header `a,b`, one row `1,2`, yielding
`[{a: "1", b: "2"}]`. -/
theorem csv2list_header_zip (fs : String → Option (List String)) (path : String)
    (header : List String) (rows : List (List String))
    (hfile : fs path = some ((header :: rows).map renderRecord))
    (_hnodup : header.Nodup)
    (hwf : ∀ r ∈ header :: rows, r ≠ [] ∧ renderRecord r ≠ ""
        ∧ ∀ c ∈ r, ',' ∉ c.data ∧ '"' ∉ c.data ∧ '\n' ∉ c.data ∧ '\r' ∉ c.data) :
    csv2list fs path = some (rows.map (fun r => dictRow header r))
    ∧ ∀ r ∈ rows, r.length = header.length →
        dictRow header r = (header.zip r).map (fun p => (some p.1, CsvCell.str p.2)) := by
  have hfilter : ((header :: rows).map renderRecord).filter (fun l => l ≠ "")
      = (header :: rows).map renderRecord := by
    apply List.filter_eq_self.mpr
    intro a ha
    obtain ⟨r, hr, rfl⟩ := List.mem_map.mp ha
    simpa using (hwf r hr).2.1
  have hrecords : csvRecords ((header :: rows).map renderRecord) = header :: rows := by
    unfold csvRecords
    rw [hfilter, List.map_map]
    have : ∀ r ∈ header :: rows, (parseCsvLine ∘ renderRecord) r = id r := by
      intro r hr
      exact parseCsvLine_renderRecord r (hwf r hr).1
        (fun x hx => ((hwf r hr).2.2 x hx).1)
    rw [List.map_congr_left this, List.map_id]
  constructor
  · unfold csv2list
    rw [hfile, Option.map_some']
    unfold dictReader
    rw [hrecords]
  · intro r _ hlen
    unfold dictRow
    rw [if_neg (by omega), hlen, List.drop_length]
    simp

/-- Witness for C8: the spec's concrete example file. -/
theorem csv2list_header_zip_witness :
    csv2list (fun p => if p = "f.csv" then some ["a,b", "1,2"] else none) "f.csv"
      = some [[(some "a", CsvCell.str "1"), (some "b", CsvCell.str "2")]] := by
  have h := csv2list_header_zip
    (fun p => if p = "f.csv" then some ["a,b", "1,2"] else none) "f.csv"
    ["a", "b"] [["1", "2"]] (by decide) (by decide) (by decide)
  rw [h.1]
  rfl
